import Mathlib

set_option autoImplicit false

/-!
Verification development for the cc_proxy reverse proxy.

The Rust sources are embedded shallowly:

* `serde_json::Value` is modeled by the inductive `Json` below. JSON numbers
  are modeled as integers (`Int`); floating-point numbers are outside the
  model, so the embedded parser rejects a fraction or exponent where serde
  would produce an `f64`. Objects are association lists in insertion order;
  `serde_json`'s map has the same lookup/insert/remove semantics at the level
  of field values, which is all the claims speak about.
* A request body travels through the pipeline as `Option Json`: `some j` is a
  byte string that parses to the value `j`, and `none` is a byte string that
  does not parse. `serde_json` round-trips values through `to_vec`/`from_slice`
  exactly, so a re-serialized body is identified with its value.
* Rust `usize` counters are `Nat` reduced modulo `2 ^ 64` exactly where the
  code's `fetch_add` wraps.
* Rust's Unicode-aware `char::is_whitespace` is modeled by the full
  White_Space code-point list; `str::to_lowercase` is modeled by ASCII
  lowering (the markers the code searches for are all ASCII).
-/

namespace CcProxy

/-! ## String helpers modeling Rust std string operations -/

/-- The backtick character (modeling the Rust literal in
`extract_command_prefix`). -/
def backtickChar : Char := Char.ofNat 96

/-- Contiguous-sublist test used to model substring containment. -/
def listIsInfixOf (pat : List Char) : List Char → Bool
  | [] => pat.isEmpty
  | c :: rest => pat.isPrefixOf (c :: rest) || listIsInfixOf pat rest

/-- Substring containment, modeling Rust `str::contains(&str)`. -/
def strContains (s pat : String) : Bool := listIsInfixOf pat.data s.data

/-- Character containment, modeling Rust `str::contains(char)`. -/
def strContainsChar (s : String) (c : Char) : Bool := s.data.contains c

/-- Unicode White_Space property, modeling Rust `char::is_whitespace`. -/
def isRustWhitespace (c : Char) : Bool :=
  [0x9, 0xA, 0xB, 0xC, 0xD, 0x20, 0x85, 0xA0, 0x1680,
   0x2000, 0x2001, 0x2002, 0x2003, 0x2004, 0x2005, 0x2006, 0x2007,
   0x2008, 0x2009, 0x200A, 0x2028, 0x2029, 0x202F, 0x205F, 0x3000].contains c.toNat

/-- Trim Unicode whitespace from both ends, modeling Rust `str::trim`. -/
def trimChars (l : List Char) : List Char :=
  ((l.dropWhile isRustWhitespace).reverse.dropWhile isRustWhitespace).reverse

/-- `str::trim` on `String`. -/
def strTrim (s : String) : String := String.mk (trimChars s.data)

/-- Rust `str::starts_with(&str)`. -/
def strStartsWith (s pre : String) : Bool := pre.data.isPrefixOf s.data

/-- Rust `str::ends_with(&str)`. -/
def strEndsWith (s suf : String) : Bool := suf.data.isSuffixOf s.data

/-- ASCII lowercasing of one character. -/
def asciiLower (c : Char) : Char :=
  if 65 ≤ c.toNat && c.toNat ≤ 90 then Char.ofNat (c.toNat + 32) else c

/-- Models Rust `str::to_ascii_lowercase`, and stands in for `to_lowercase`
on the ASCII marker strings the code searches for. -/
def strLowerAscii (s : String) : String := String.mk (s.data.map asciiLower)

/-! ## The JSON data model (`serde_json::Value`) -/

/-- Model of `serde_json::Value`; numbers are restricted to integers. -/
inductive Json where
  | null
  | bool (b : Bool)
  | num (n : Int)
  | str (s : String)
  | arr (elems : List Json)
  | obj (fields : List (String × Json))

/-- First binding of a key in an object, modeling `Map::get`. -/
def lookupField : List (String × Json) → String → Option Json
  | [], _ => none
  | (k, v) :: rest, key => if k = key then some v else lookupField rest key

/-- Replace the binding of a key in place, appending when absent; this is
`Map::insert`'s effect on lookups. -/
def setField : List (String × Json) → String → Json → List (String × Json)
  | [], key, v => [(key, v)]
  | (k, w) :: rest, key, v =>
      if k = key then (key, v) :: rest else (k, w) :: setField rest key v

/-- Delete the binding of a key, modeling `Map::remove`. -/
def removeField : List (String × Json) → String → List (String × Json)
  | [], _ => []
  | (k, w) :: rest, key =>
      if k = key then removeField rest key else (k, w) :: removeField rest key

/-- `Value::get(key)`: `None` on non-objects. -/
def Json.get? : Json → String → Option Json
  | .obj fields, key => lookupField fields key
  | _, _ => none

/-- `Value::as_str`. -/
def Json.asStr : Json → Option String
  | .str s => some s
  | _ => none

/-- `Value::as_bool`. -/
def Json.asBool : Json → Option Bool
  | .bool b => some b
  | _ => none

/-- `Value::as_i64`: an integral number in the `i64` range. -/
def Json.asI64 : Json → Option Int
  | .num n => if -(2 ^ 63) ≤ n && n < 2 ^ 63 then some n else none
  | _ => none

/-- `Value::as_array`. -/
def Json.asArr : Json → Option (List Json)
  | .arr elems => some elems
  | _ => none

/-- Overwrite one key of an object, leaving non-objects unchanged (the
callers below only apply it after a successful `get`). -/
def Json.setKey : Json → String → Json → Json
  | .obj fields, key, v => .obj (setField fields key v)
  | j, _, _ => j

/-! ## UpstreamSelector (src/upstream_selector.rs) -/

/-- `UpstreamConfig` as the selector uses it. -/
structure UpstreamConfig where
  endpoint : String
  model : String
  api_keys : List String
  oai_api : Bool

/-- Placeholder upstream used only to total out-of-range list indexing
(never reached when the index is in bounds). -/
def defaultUpstream : UpstreamConfig := ⟨"", "", [], false⟩

/-- The modulus of a 64-bit `usize` counter. -/
def USIZE_MOD : Nat := 2 ^ 64

/-- `UpstreamSelector`: the upstream list plus the atomic global counter.
The counter is kept below `USIZE_MOD`, wrapping exactly as `fetch_add` does. -/
structure UpstreamSelector where
  upstreams : List UpstreamConfig
  nextIndex : Nat

/-- `UpstreamSelector::new`: `None` on an empty list, counter starts at 0. -/
def UpstreamSelector.new (ups : List UpstreamConfig) : Option UpstreamSelector :=
  if ups.isEmpty then none else some ⟨ups, 0⟩

/-- `UpstreamSelector::next`: one call, returning the yielded tuple together
with the successor state (the Rust method mutates the atomic counter). -/
def UpstreamSelector.next (s : UpstreamSelector) :
    Option (Nat × String × String × String × Bool) × UpstreamSelector :=
  if s.upstreams.isEmpty then (none, s)
  else
    let upstreamCount := s.upstreams.length
    let globalIdx := s.nextIndex
    let s2 : UpstreamSelector := ⟨s.upstreams, (s.nextIndex + 1) % USIZE_MOD⟩
    let upstreamIdx := globalIdx % upstreamCount
    let upstream := s.upstreams.getD upstreamIdx defaultUpstream
    let apiKey :=
      if upstream.api_keys.isEmpty then ""
      else upstream.api_keys.getD ((globalIdx / upstreamCount) % upstream.api_keys.length) ""
    (some (upstreamIdx, upstream.endpoint, upstream.model, apiKey, upstream.oai_api), s2)

/-- State after a number of calls to `next`. -/
def selectorAfterCalls : UpstreamSelector → Nat → UpstreamSelector
  | s, 0 => s
  | s, n + 1 => selectorAfterCalls (s.next).2 n

/-- Result of the i-th call to `next` (counting from 0) on a selector. -/
def selectorNthCall (s : UpstreamSelector) (i : Nat) :
    Option (Nat × String × String × String × Bool) :=
  ((selectorAfterCalls s i).next).1

theorem selector_next_of_cons (u : UpstreamConfig) (us : List UpstreamConfig) (c : Nat) :
    (UpstreamSelector.next ⟨u :: us, c⟩) =
      (some (c % (u :: us).length,
        ((u :: us).getD (c % (u :: us).length) defaultUpstream).endpoint,
        ((u :: us).getD (c % (u :: us).length) defaultUpstream).model,
        (if ((u :: us).getD (c % (u :: us).length) defaultUpstream).api_keys.isEmpty then ""
         else ((u :: us).getD (c % (u :: us).length) defaultUpstream).api_keys.getD
           ((c / (u :: us).length) %
             ((u :: us).getD (c % (u :: us).length) defaultUpstream).api_keys.length) ""),
        ((u :: us).getD (c % (u :: us).length) defaultUpstream).oai_api),
       ⟨u :: us, (c + 1) % USIZE_MOD⟩) := by
  simp [UpstreamSelector.next]

theorem selectorAfterCalls_counter (u : UpstreamConfig) (us : List UpstreamConfig) :
    ∀ (i c : Nat), c < USIZE_MOD →
      selectorAfterCalls ⟨u :: us, c⟩ i = ⟨u :: us, (c + i) % USIZE_MOD⟩ := by
  intro i
  induction i with
  | zero =>
      intro c hc
      simp [selectorAfterCalls, Nat.mod_eq_of_lt hc]
  | succ n ih =>
      intro c hc
      have hstep : (UpstreamSelector.next ⟨u :: us, c⟩).2 = ⟨u :: us, (c + 1) % USIZE_MOD⟩ := by
        rw [selector_next_of_cons]
      have hlt : (c + 1) % USIZE_MOD < USIZE_MOD :=
        Nat.mod_lt _ (by simp [USIZE_MOD])
      calc selectorAfterCalls ⟨u :: us, c⟩ (n + 1)
          = selectorAfterCalls (UpstreamSelector.next ⟨u :: us, c⟩).2 n := rfl
        _ = selectorAfterCalls ⟨u :: us, (c + 1) % USIZE_MOD⟩ n := by rw [hstep]
        _ = ⟨u :: us, ((c + 1) % USIZE_MOD + n) % USIZE_MOD⟩ := ih _ hlt
        _ = ⟨u :: us, (c + (n + 1)) % USIZE_MOD⟩ := by
              rw [Nat.mod_add_mod]
              have harith : c + 1 + n = c + (n + 1) := by omega
              rw [harith]

/-- C1: for a selector built by `new` from a non-empty upstream list, the
i-th call to `next` (counting from 0) yields upstream index `i mod N` and,
when that upstream's key list is non-empty, the api_key at index
`(i div N) mod K`; when the key list is empty it yields the empty string.
The counter is a wrapping `usize`, so the statement carries `i < 2 ^ 64`. -/
theorem C1_selector_double_round_robin
    (ups : List UpstreamConfig) (s0 : UpstreamSelector)
    (hnew : UpstreamSelector.new ups = some s0)
    (i : Nat) (hi : i < USIZE_MOD) :
    selectorNthCall s0 i =
      some (i % ups.length,
        (ups.getD (i % ups.length) defaultUpstream).endpoint,
        (ups.getD (i % ups.length) defaultUpstream).model,
        (if (ups.getD (i % ups.length) defaultUpstream).api_keys.isEmpty then ""
         else (ups.getD (i % ups.length) defaultUpstream).api_keys.getD
           ((i / ups.length) % (ups.getD (i % ups.length) defaultUpstream).api_keys.length) ""),
        (ups.getD (i % ups.length) defaultUpstream).oai_api) := by
  match ups, hnew with
  | [], h => simp [UpstreamSelector.new] at h
  | u :: us, h =>
    have hs0 : s0 = ⟨u :: us, 0⟩ := by
      simp [UpstreamSelector.new] at h
      exact h.symm
    subst hs0
    unfold selectorNthCall
    rw [selectorAfterCalls_counter u us i 0 (by simp [USIZE_MOD]),
      Nat.zero_add, Nat.mod_eq_of_lt hi, selector_next_of_cons]

/-- The spec's worked example: upstreams `A(keys:[a1,a2])`, `B(keys:[b1,b2,b3])`. -/
def c1ExampleUpstreams : List UpstreamConfig :=
  [⟨"epA", "mA", ["a1", "a2"], false⟩, ⟨"epB", "mB", ["b1", "b2", "b3"], true⟩]

/-- Witness for C1: on the spec's worked example the first seven calls yield
keys `a1, b1, a2, b2, a1, b3, a2`, alternating upstream indices 0 and 1. -/
theorem C1_selector_double_round_robin_witness :
    selectorNthCall ⟨c1ExampleUpstreams, 0⟩ 0 = some (0, "epA", "mA", "a1", false) ∧
    selectorNthCall ⟨c1ExampleUpstreams, 0⟩ 1 = some (1, "epB", "mB", "b1", true) ∧
    selectorNthCall ⟨c1ExampleUpstreams, 0⟩ 2 = some (0, "epA", "mA", "a2", false) ∧
    selectorNthCall ⟨c1ExampleUpstreams, 0⟩ 3 = some (1, "epB", "mB", "b2", true) ∧
    selectorNthCall ⟨c1ExampleUpstreams, 0⟩ 4 = some (0, "epA", "mA", "a1", false) ∧
    selectorNthCall ⟨c1ExampleUpstreams, 0⟩ 5 = some (1, "epB", "mB", "b3", true) ∧
    selectorNthCall ⟨c1ExampleUpstreams, 0⟩ 6 = some (0, "epA", "mA", "a2", false) :=
  ⟨(C1_selector_double_round_robin c1ExampleUpstreams ⟨c1ExampleUpstreams, 0⟩
      rfl 0 (by decide)).trans rfl,
   (C1_selector_double_round_robin c1ExampleUpstreams ⟨c1ExampleUpstreams, 0⟩
      rfl 1 (by decide)).trans rfl,
   (C1_selector_double_round_robin c1ExampleUpstreams ⟨c1ExampleUpstreams, 0⟩
      rfl 2 (by decide)).trans rfl,
   (C1_selector_double_round_robin c1ExampleUpstreams ⟨c1ExampleUpstreams, 0⟩
      rfl 3 (by decide)).trans rfl,
   (C1_selector_double_round_robin c1ExampleUpstreams ⟨c1ExampleUpstreams, 0⟩
      rfl 4 (by decide)).trans rfl,
   (C1_selector_double_round_robin c1ExampleUpstreams ⟨c1ExampleUpstreams, 0⟩
      rfl 5 (by decide)).trans rfl,
   (C1_selector_double_round_robin c1ExampleUpstreams ⟨c1ExampleUpstreams, 0⟩
      rfl 6 (by decide)).trans rfl⟩

/-! ## Request filters
(src/gateway/handler/system_prompt.rs, content_tag.rs, tool_desc.rs) -/

/-- `SYSTEM_PROMPT_FILTER_MARKERS` from system_prompt.rs. -/
def SYSTEM_PROMPT_FILTER_MARKERS : List String :=
  ["You are an interactive CLI tool that helps users with soft",
   "You are Claude Code",
   "You are a file search specialist for Claude Code",
   "x-anthropic-billing-header: cc_version="]

/-- The retention predicate of `filter_system_prompts`: keep an element
unless its `.text` string contains one of the markers. -/
def systemItemKeep (item : Json) : Bool :=
  match (item.get? "text").bind Json.asStr with
  | none => true
  | some text => !(SYSTEM_PROMPT_FILTER_MARKERS.any (fun marker => strContains text marker))

/-- `filter_system_prompts`: parse, retain on the `system` array, reserialize;
`None` ("unchanged") when parsing fails or `system` is absent / not an array. -/
def filterSystemPrompts (j : Json) : Option Json :=
  match j.get? "system" with
  | some (Json.arr items) =>
      some (j.setKey "system" (Json.arr (items.filter systemItemKeep)))
  | _ => none

/-- `CONTENT_TAG_FILTERS` from content_tag.rs — note the fifth, mismatched
pair `(<command-name>, </command-args>)` present in the source. -/
def CONTENT_TAG_FILTERS : List (String × String) :=
  [("<system-reminder>", "</system-reminder>"),
   ("<local-command-stdout>", "</local-command-stdout>"),
   ("<command-name>", "</command-name>"),
   ("<local-command-caveat>", "</local-command-caveat>"),
   ("<command-name>", "</command-args>")]

/-- `should_remove_content`: the trimmed text starts with the opening tag and
ends with the closing tag of some pair in the table. -/
def shouldRemoveContent (text : String) : Bool :=
  CONTENT_TAG_FILTERS.any (fun p =>
    strStartsWith (strTrim text) p.1 && strEndsWith (strTrim text) p.2)

/-- The retention predicate of `filter_messages_content`. -/
def contentItemKeep (item : Json) : Bool :=
  match (item.get? "text").bind Json.asStr with
  | none => true
  | some text => !shouldRemoveContent text

/-- Per-message body of the `filter_messages_content` loop: retain on the
`content` array when present, otherwise leave the message alone. -/
def filterMessageContent (message : Json) : Json :=
  match message.get? "content" with
  | some (Json.arr items) =>
      message.setKey "content" (Json.arr (items.filter contentItemKeep))
  | _ => message

/-- `filter_messages_content`: `None` when parsing fails or `messages` is
absent / not an array. -/
def filterMessagesContent (j : Json) : Option Json :=
  match j.get? "messages" with
  | some (Json.arr msgs) =>
      some (j.setKey "messages" (Json.arr (msgs.map filterMessageContent)))
  | _ => none

/-- `TOOLS_DESCRIPTION_FILTER_KEYWORDS` from tool_desc.rs. -/
def TOOLS_DESCRIPTION_FILTER_KEYWORDS : List String :=
  ["A powerful search tool built on ripgrep",
   "Allows Claude to search the web",
   "WebFetch WILL FAIL for authenticated or private URLs.",
   "List all available sources (websites) in the Actionbook database.",
   "Search for sources (websites) by keyword.",
   "Search for website action manuals by keyword.",
   "Get complete action details by area_id, including DOM selectors and element information.",
   "Get complete action details by action ID, including DOM selectors and step-by-step instructions."]

/-- `should_remove_tool_by_description`. -/
def shouldRemoveToolByDescription (description : String) : Bool :=
  TOOLS_DESCRIPTION_FILTER_KEYWORDS.any (fun keyword => strContains description keyword)

/-- The retention predicate of `filter_tools_by_description`. -/
def toolKeep (tool : Json) : Bool :=
  match (tool.get? "description").bind Json.asStr with
  | none => true
  | some d => !shouldRemoveToolByDescription d

/-- `filter_tools_by_description`. -/
def filterToolsByDescription (j : Json) : Option Json :=
  match j.get? "tools" with
  | some (Json.arr tools) =>
      some (j.setKey "tools" (Json.arr (tools.filter toolKeep)))
  | _ => none

/-- One stage of `filter_req_body`: apply a filter to the current body and
keep the previous body when the filter reports "unchanged" (`None`). A byte
string that does not parse is the body `none` and passes through unchanged
(the filter's own parse fails on it). -/
def filterStep (filterFn : Json → Option Json) : Option Json → Option Json
  | none => none
  | some j => some ((filterFn j).getD j)

/-! ### Association-list and filter lemmas -/

theorem lookupField_setField_self (fs : List (String × Json)) (k : String) (v : Json) :
    lookupField (setField fs k v) k = some v := by
  induction fs with
  | nil => simp [setField, lookupField]
  | cons p rest ih =>
      obtain ⟨k', v'⟩ := p
      by_cases h : k' = k
      · simp [setField, h, lookupField]
      · simp [setField, h, lookupField, ih]

theorem lookupField_setField_ne (fs : List (String × Json)) (k k' : String) (v : Json)
    (h : k ≠ k') : lookupField (setField fs k v) k' = lookupField fs k' := by
  induction fs with
  | nil => simp [setField, lookupField, h]
  | cons p rest ih =>
      obtain ⟨k0, v0⟩ := p
      by_cases h0 : k0 = k
      · simp [setField, h0, lookupField, h]
      · by_cases h1 : k0 = k'
        · simp [setField, h0, lookupField, h1, Ne.symm h]
        · simp [setField, h0, lookupField, h1, ih]

theorem setField_setField_self (fs : List (String × Json)) (k : String) (v w : Json) :
    setField (setField fs k v) k w = setField fs k w := by
  induction fs with
  | nil => simp [setField]
  | cons p rest ih =>
      obtain ⟨k', v'⟩ := p
      by_cases h : k' = k
      · simp [setField, h]
      · simp [setField, h, ih]

theorem filter_keep_idem {α : Type} (p : α → Bool) (l : List α) :
    (l.filter p).filter p = l.filter p := by
  induction l with
  | nil => rfl
  | cons x rest ih =>
      by_cases h : p x
      · simp [List.filter, h, ih]
      · simp [List.filter, h, ih]

/-- Any filter of the shape "get the key as an array, rewrite the array,
set the key back" (all three request filters have this shape). -/
def keyedArrayRewrite (key : String) (g : List Json → List Json) (j : Json) : Option Json :=
  match j.get? key with
  | some (Json.arr xs) => some (j.setKey key (Json.arr (g xs)))
  | _ => none

theorem filterSystemPrompts_eq_keyed :
    filterSystemPrompts =
      keyedArrayRewrite "system" (fun items => items.filter systemItemKeep) := rfl

theorem filterMessagesContent_eq_keyed :
    filterMessagesContent =
      keyedArrayRewrite "messages" (fun msgs => msgs.map filterMessageContent) := rfl

theorem filterToolsByDescription_eq_keyed :
    filterToolsByDescription =
      keyedArrayRewrite "tools" (fun tools => tools.filter toolKeep) := rfl

theorem keyedArrayRewrite_none {key : String} {g : List Json → List Json} {j : Json}
    (h : ∀ xs, j.get? key ≠ some (Json.arr xs)) :
    keyedArrayRewrite key g j = none := by
  unfold keyedArrayRewrite
  rcases hget : j.get? key with - | v
  · rfl
  · cases v with
    | arr xs => exact absurd hget (h xs)
    | null => rfl
    | bool b => rfl
    | num n => rfl
    | str s => rfl
    | obj fields => rfl

theorem keyedArrayRewrite_some {key : String} {g : List Json → List Json} {fields : List (String × Json)}
    {xs : List Json} (h : lookupField fields key = some (Json.arr xs)) :
    keyedArrayRewrite key g (Json.obj fields) =
      some (Json.obj (setField fields key (Json.arr (g xs)))) := by
  unfold keyedArrayRewrite
  show (match (Json.obj fields).get? key with
    | some (Json.arr xs) => some ((Json.obj fields).setKey key (Json.arr (g xs)))
    | _ => none) = _
  rw [show (Json.obj fields).get? key = some (Json.arr xs) from h]
  rfl

theorem keyedArrayRewrite_step_idem (key : String) (g : List Json → List Json)
    (hg : ∀ xs, g (g xs) = g xs) (b : Option Json) :
    filterStep (keyedArrayRewrite key g) (filterStep (keyedArrayRewrite key g) b) =
      filterStep (keyedArrayRewrite key g) b := by
  cases b with
  | none => rfl
  | some j =>
      by_cases hj : ∀ xs, j.get? key ≠ some (Json.arr xs)
      · rw [show filterStep (keyedArrayRewrite key g) (some j) = some j by
          simp [filterStep, keyedArrayRewrite_none hj]]
        simp [filterStep, keyedArrayRewrite_none hj]
      · push_neg at hj
        obtain ⟨xs, hxs⟩ := hj
        cases j with
        | obj fields =>
            have hl : lookupField fields key = some (Json.arr xs) := hxs
            have h1 : filterStep (keyedArrayRewrite key g) (some (Json.obj fields)) =
                some (Json.obj (setField fields key (Json.arr (g xs)))) := by
              simp [filterStep, keyedArrayRewrite_some hl]
            rw [h1]
            have hl2 : lookupField (setField fields key (Json.arr (g xs))) key =
                some (Json.arr (g xs)) := lookupField_setField_self _ _ _
            simp [filterStep, keyedArrayRewrite_some hl2, setField_setField_self, hg]
        | null => exact absurd hxs (by simp [Json.get?])
        | bool b => exact absurd hxs (by simp [Json.get?])
        | num n => exact absurd hxs (by simp [Json.get?])
        | str s => exact absurd hxs (by simp [Json.get?])
        | arr ys => exact absurd hxs (by simp [Json.get?])

theorem filterMessageContent_idem (m : Json) :
    filterMessageContent (filterMessageContent m) = filterMessageContent m := by
  by_cases hm : ∀ xs, m.get? "content" ≠ some (Json.arr xs)
  · have h1 : filterMessageContent m = m := by
      unfold filterMessageContent
      rcases hget : m.get? "content" with - | v
      · rfl
      · cases v with
        | arr xs => exact absurd hget (hm xs)
        | null => rfl
        | bool b => rfl
        | num n => rfl
        | str s => rfl
        | obj fields => rfl
    rw [h1, h1]
  · push_neg at hm
    obtain ⟨xs, hxs⟩ := hm
    cases m with
    | obj fields =>
        have hl : lookupField fields "content" = some (Json.arr xs) := hxs
        have h1 : filterMessageContent (Json.obj fields) =
            Json.obj (setField fields "content" (Json.arr (xs.filter contentItemKeep))) := by
          unfold filterMessageContent
          show (match (Json.obj fields).get? "content" with
            | some (Json.arr items) =>
                (Json.obj fields).setKey "content" (Json.arr (items.filter contentItemKeep))
            | _ => Json.obj fields) = _
          rw [show (Json.obj fields).get? "content" = some (Json.arr xs) from hl]
          rfl
        rw [h1]
        have hl2 : lookupField (setField fields "content" (Json.arr (xs.filter contentItemKeep)))
            "content" = some (Json.arr (xs.filter contentItemKeep)) :=
          lookupField_setField_self _ _ _
        unfold filterMessageContent
        show (match (Json.obj _).get? "content" with
          | some (Json.arr items) =>
              (Json.obj _).setKey "content" (Json.arr (items.filter contentItemKeep))
          | _ => Json.obj _) = _
        rw [show (Json.obj (setField fields "content" (Json.arr (xs.filter contentItemKeep)))).get?
              "content" = some (Json.arr (xs.filter contentItemKeep)) from hl2]
        simp [Json.setKey, setField_setField_self, filter_keep_idem]
    | null => exact absurd hxs (by simp [Json.get?])
    | bool b => exact absurd hxs (by simp [Json.get?])
    | num n => exact absurd hxs (by simp [Json.get?])
    | str s => exact absurd hxs (by simp [Json.get?])
    | arr ys => exact absurd hxs (by simp [Json.get?])

/-- C4: each of the three request filters, seen as a pipeline stage of
`filter_req_body` (the "unchanged" result keeps the previous body), is
idempotent: applying it to its own output changes nothing. -/
theorem C4_filters_idempotent (body : Option Json) :
    filterStep filterSystemPrompts (filterStep filterSystemPrompts body) =
      filterStep filterSystemPrompts body ∧
    filterStep filterMessagesContent (filterStep filterMessagesContent body) =
      filterStep filterMessagesContent body ∧
    filterStep filterToolsByDescription (filterStep filterToolsByDescription body) =
      filterStep filterToolsByDescription body := by
  refine ⟨?_, ?_, ?_⟩
  · rw [filterSystemPrompts_eq_keyed]
    exact keyedArrayRewrite_step_idem _ _ (fun xs => filter_keep_idem _ _) body
  · rw [filterMessagesContent_eq_keyed]
    refine keyedArrayRewrite_step_idem _ _ (fun xs => ?_) body
    rw [List.map_map]
    exact List.map_congr_left (fun m _ => filterMessageContent_idem m)
  · rw [filterToolsByDescription_eq_keyed]
    exact keyedArrayRewrite_step_idem _ _ (fun xs => filter_keep_idem _ _) body

theorem filterMessageContent_of_content {m : Json} {items : List Json}
    (h : m.get? "content" = some (Json.arr items)) :
    filterMessageContent m = m.setKey "content" (Json.arr (items.filter contentItemKeep)) := by
  unfold filterMessageContent
  rw [h]

/-- The four matching tag pairs named by the claim; the code's table
(`CONTENT_TAG_FILTERS`) additionally holds the mismatched pair
`(<command-name>, </command-args>)`. Stated only to compare the claim's
removal condition with the code's. -/
def claimedContentTagPairs : List (String × String) :=
  [("<system-reminder>", "</system-reminder>"),
   ("<local-command-stdout>", "</local-command-stdout>"),
   ("<command-name>", "</command-name>"),
   ("<local-command-caveat>", "</local-command-caveat>")]

/-- The claim's removal condition: trimmed text starts with an opening tag
and ends with the matching closing tag (four pairs only). -/
def shouldRemoveContentClaimed (text : String) : Bool :=
  claimedContentTagPairs.any (fun p =>
    strStartsWith (strTrim text) p.1 && strEndsWith (strTrim text) p.2)

/-- C5 counterexample: the element text `<command-name>compact</command-args>`
starts with `<command-name>` but ends with `</command-args>` — not the
matching closing tag — yet the code drops it (fifth table pair), while the
claim's condition says it must be preserved. -/
theorem C5_counterexample :
    shouldRemoveContent "<command-name>compact</command-args>" = true ∧
    shouldRemoveContentClaimed "<command-name>compact</command-args>" = false ∧
    filterMessagesContent (Json.obj [("messages", Json.arr [Json.obj [("content",
        Json.arr [Json.obj [("text", Json.str "<command-name>compact</command-args>")]])]])]) =
      some (Json.obj [("messages", Json.arr [Json.obj [("content", Json.arr [])]])]) :=
  ⟨rfl, rfl, rfl⟩

/-- C5 (amended): the content-tag filter drops a `messages[].content[]`
element exactly when its `.text`, after trimming, starts with the opening
tag and ends with the closing tag of one of the five table pairs — the four
matching pairs plus `(<command-name>, </command-args>)`. It removes whole
elements only, survivors are kept verbatim, and an element whose text does
not start with any opening tag (e.g. merely contains a tag) is preserved. -/
theorem C5_content_tag_strip (j : Json) (msgs : List Json)
    (hmsgs : j.get? "messages" = some (Json.arr msgs)) :
    filterMessagesContent j =
      some (j.setKey "messages" (Json.arr (msgs.map filterMessageContent))) ∧
    (∀ m items, m.get? "content" = some (Json.arr items) →
      filterMessageContent m = m.setKey "content" (Json.arr (items.filter contentItemKeep))) ∧
    (∀ item text, (item.get? "text").bind Json.asStr = some text →
      contentItemKeep item = !shouldRemoveContent text) ∧
    (∀ item, (item.get? "text").bind Json.asStr = none → contentItemKeep item = true) ∧
    (∀ text, shouldRemoveContent text =
      CONTENT_TAG_FILTERS.any (fun p =>
        strStartsWith (strTrim text) p.1 && strEndsWith (strTrim text) p.2)) ∧
    (∀ item text, (item.get? "text").bind Json.asStr = some text →
      (∀ p ∈ CONTENT_TAG_FILTERS, strStartsWith (strTrim text) p.1 = false) →
      contentItemKeep item = true) := by
  refine ⟨?_, ?_, ?_, ?_, fun _ => rfl, ?_⟩
  · cases j with
    | obj fields =>
        rw [filterMessagesContent_eq_keyed]
        exact keyedArrayRewrite_some hmsgs
    | null => exact absurd hmsgs (by simp [Json.get?])
    | bool b => exact absurd hmsgs (by simp [Json.get?])
    | num n => exact absurd hmsgs (by simp [Json.get?])
    | str s => exact absurd hmsgs (by simp [Json.get?])
    | arr ys => exact absurd hmsgs (by simp [Json.get?])
  · intro m items hitems
    exact filterMessageContent_of_content hitems
  · intro item text h
    unfold contentItemKeep
    rw [h]
  · intro item h
    unfold contentItemKeep
    rw [h]
  · intro item text h hstart
    have hfalse : shouldRemoveContent text = false := by
      unfold shouldRemoveContent
      rw [List.any_eq_false]
      intro p hp
      simp [hstart p hp]
    unfold contentItemKeep
    rw [h]
    show (!shouldRemoveContent text) = true
    rw [hfalse]
    rfl

/-- Concrete body for the C5 witness: one element to drop, one survivor
whose text contains (but does not start with) a tag. -/
def c5WitnessBody : Json :=
  Json.obj [("messages", Json.arr [Json.obj [("role", Json.str "user"),
    ("content", Json.arr [
      Json.obj [("type", Json.str "text"),
                ("text", Json.str "<system-reminder>hi</system-reminder>")],
      Json.obj [("type", Json.str "text"),
                ("text", Json.str "see <system-reminder> later")]])]])]

/-- Witness for C5: on `c5WitnessBody` the tagged element is dropped and the
element that merely contains the tag survives unchanged. -/
theorem C5_content_tag_strip_witness :
    filterMessagesContent c5WitnessBody =
      some (Json.obj [("messages", Json.arr [Json.obj [("role", Json.str "user"),
        ("content", Json.arr [
          Json.obj [("type", Json.str "text"),
                    ("text", Json.str "see <system-reminder> later")]])]])]) :=
  ((C5_content_tag_strip c5WitnessBody _ rfl).1).trans rfl

/-- C9: for a body that does not parse (`none`), or whose target field is
absent or not an array, each filter answers "unchanged" (`None`) and the
`filter_req_body` pipeline stage keeps the previous body exactly. -/
theorem C9_filter_preservation (j : Json) :
    ((∀ xs, j.get? "system" ≠ some (Json.arr xs)) →
      filterSystemPrompts j = none ∧ filterStep filterSystemPrompts (some j) = some j) ∧
    ((∀ xs, j.get? "messages" ≠ some (Json.arr xs)) →
      filterMessagesContent j = none ∧ filterStep filterMessagesContent (some j) = some j) ∧
    ((∀ xs, j.get? "tools" ≠ some (Json.arr xs)) →
      filterToolsByDescription j = none ∧
        filterStep filterToolsByDescription (some j) = some j) ∧
    filterStep filterSystemPrompts none = none ∧
    filterStep filterMessagesContent none = none ∧
    filterStep filterToolsByDescription none = none := by
  refine ⟨?_, ?_, ?_, rfl, rfl, rfl⟩
  · intro h
    have hn : filterSystemPrompts j = none := by
      rw [filterSystemPrompts_eq_keyed]
      exact keyedArrayRewrite_none h
    exact ⟨hn, by simp [filterStep, hn]⟩
  · intro h
    have hn : filterMessagesContent j = none := by
      rw [filterMessagesContent_eq_keyed]
      exact keyedArrayRewrite_none h
    exact ⟨hn, by simp [filterStep, hn]⟩
  · intro h
    have hn : filterToolsByDescription j = none := by
      rw [filterToolsByDescription_eq_keyed]
      exact keyedArrayRewrite_none h
    exact ⟨hn, by simp [filterStep, hn]⟩

/-- Witness for C9: a body whose `system` is a string (not an array) and
which has no `messages`/`tools` passes through all three filters intact. -/
theorem C9_filter_preservation_witness :
    filterSystemPrompts (Json.obj [("system", Json.str "nope")]) = none ∧
    filterStep filterSystemPrompts (some (Json.obj [("system", Json.str "nope")])) =
      some (Json.obj [("system", Json.str "nope")]) ∧
    filterStep filterMessagesContent (some (Json.obj [("system", Json.str "nope")])) =
      some (Json.obj [("system", Json.str "nope")]) ∧
    filterStep filterSystemPrompts none = none :=
  ⟨((C9_filter_preservation (Json.obj [("system", Json.str "nope")])).1
      (by intro xs h; simp [Json.get?, lookupField] at h)).1,
   ((C9_filter_preservation (Json.obj [("system", Json.str "nope")])).1
      (by intro xs h; simp [Json.get?, lookupField] at h)).2,
   ((C9_filter_preservation (Json.obj [("system", Json.str "nope")])).2.1
      (by intro xs h; simp [Json.get?, lookupField] at h)).2,
   (C9_filter_preservation (Json.obj [("system", Json.str "nope")])).2.2.2.1⟩

/-! ## Model override (src/gateway/handler/request.rs, `override_model_in_body`) -/

/-- `override_model_in_body`: parse the body, assign `json["model"]`,
reserialize. `None` when the bytes do not parse. `serde_json`'s `IndexMut`
turns a `Null` root into a fresh object holding only `model`; on any other
non-object root it panics — that unreachable-by-claim branch is modeled as
`none` and no theorem below relies on it. -/
def overrideModelInBody (body : Option Json) (model : String) : Option Json :=
  match body with
  | none => none
  | some (Json.obj fields) => some (Json.obj (setField fields "model" (Json.str model)))
  | some Json.null => some (Json.obj [("model", Json.str model)])
  | some _ => none

/-- The call site in `claude_proxy`:
`override_model_in_body(&body_bytes, &model).unwrap_or(body_bytes)`. -/
def overrideModelStep (body : Option Json) (model : String) : Option Json :=
  match overrideModelInBody body model with
  | some newBody => some newBody
  | none => body

/-- C10: on a JSON-object body, `override_model_in_body` sets the top-level
`model` field to the selected model and leaves the lookup of every other
field unchanged; on an unparseable body it returns `None` and the pipeline
forwards the original bytes. -/
theorem C10_override_model_frame (fields : List (String × Json)) (model : String) :
    overrideModelInBody (some (Json.obj fields)) model =
      some (Json.obj (setField fields "model" (Json.str model))) ∧
    lookupField (setField fields "model" (Json.str model)) "model" =
      some (Json.str model) ∧
    (∀ k, k ≠ "model" →
      lookupField (setField fields "model" (Json.str model)) k = lookupField fields k) ∧
    overrideModelInBody none model = none ∧
    overrideModelStep none model = none := by
  refine ⟨rfl, lookupField_setField_self _ _ _, ?_, rfl, rfl⟩
  intro k hk
  exact lookupField_setField_ne _ _ _ _ (Ne.symm hk)

/-- Witness for C10: overriding `model` on `{model: "old", x: 1}` yields
`{model: "new", x: 1}`, and the `x` field still looks up to `1`. -/
theorem C10_override_model_frame_witness :
    overrideModelInBody (some (Json.obj [("model", Json.str "old"), ("x", Json.num 1)]))
        "new" = some (Json.obj [("model", Json.str "new"), ("x", Json.num 1)]) ∧
    lookupField (setField [("model", Json.str "old"), ("x", Json.num 1)]
        "model" (Json.str "new")) "x" = some (Json.num 1) :=
  ⟨(C10_override_model_frame [("model", Json.str "old"), ("x", Json.num 1)] "new").1.trans rfl,
   ((C10_override_model_frame [("model", Json.str "old"), ("x", Json.num 1)] "new").2.2.1
      "x" (by decide)).trans rfl⟩

/-! ## Upstream transaction outcome (src/gateway/handler/mod.rs, `claude_proxy`) -/

/-- Outcome of `client.request(proxy_req).await` as the handler sees it:
either a network error (`Err(e)`) or a response with a status code and a
collected non-SSE body. -/
inductive UpstreamOutcome where
  | netErr
  | ok (status : Nat) (body : String)

/-- The client-visible `(status, body)` produced by the tail of
`claude_proxy` for a non-SSE exchange on an Anthropic-direct upstream (no
gzip, no schema translation — neither changes the status code, and the
claim is about statuses and the error body). `Err(_)` → 502 with
`"Bad Gateway"`; `Ok` → the upstream status forwarded through
`StatusCode::from_u16(..).unwrap_or(INTERNAL_SERVER_ERROR)` (500 outside
the valid 100..=999 range) with the upstream body. -/
def proxyClientResult : UpstreamOutcome → Nat × String
  | .netErr => (502, "Bad Gateway")
  | .ok status body => (if 100 ≤ status ∧ status ≤ 999 then status else 500, body)

/-- C2 counterexample: an upstream 404 (a non-2xx response) is forwarded to
the client as 404 with the upstream body — not as 502 `"Bad Gateway"` as the
claim states. -/
theorem C2_counterexample :
    proxyClientResult (.ok 404 "not found") = (404, "not found") ∧
    proxyClientResult (.ok 404 "not found") ≠ (502, "Bad Gateway") :=
  ⟨by simp [proxyClientResult], by simp [proxyClientResult]⟩

/-- C2 (amended): a network error yields HTTP 502 with body `"Bad Gateway"`;
an upstream response — 2xx or not — is forwarded to the client with its own
status code and body. -/
theorem C2_bad_gateway (status : Nat) (body : String)
    (h1 : 100 ≤ status) (h2 : status ≤ 999) :
    proxyClientResult .netErr = (502, "Bad Gateway") ∧
    proxyClientResult (.ok status body) = (status, body) :=
  ⟨rfl, by simp [proxyClientResult, h1, h2]⟩

/-- Witness for C2: a concrete non-2xx status forwarded unchanged. -/
theorem C2_bad_gateway_witness :
    proxyClientResult (.ok 429 "rate limited") = (429, "rate limited") :=
  (C2_bad_gateway 429 "rate limited" (by decide) (by decide)).2

/-! ## Command-prefix extraction (src/gateway/optimization/command_utils.rs) -/

/-- Backslash character. -/
def backslashChar : Char := Char.ofNat 92

/-- Single-quote character. -/
def squoteChar : Char := Char.ofNat 39

/-- Double-quote character. -/
def dquoteChar : Char := Char.ofNat 34

/-- The character loop of `split_shell_words`: current word, single-quote
state, double-quote state, escaping state. -/
def splitShellWordsAux : List Char → List Char → Bool → Bool → Bool → List String
  | [], current, _, _, escaping =>
      let current := if escaping then current ++ [backslashChar] else current
      if current.isEmpty then [] else [String.mk current]
  | c :: rest, current, inSingle, inDouble, escaping =>
      if escaping then splitShellWordsAux rest (current ++ [c]) inSingle inDouble false
      else if c == backslashChar && !inSingle then
        splitShellWordsAux rest current inSingle inDouble true
      else if c == squoteChar && !inDouble then
        splitShellWordsAux rest current (!inSingle) inDouble false
      else if c == dquoteChar && !inSingle then
        splitShellWordsAux rest current inSingle (!inDouble) false
      else if isRustWhitespace c && !inSingle && !inDouble then
        (if current.isEmpty then splitShellWordsAux rest [] inSingle inDouble false
         else String.mk current :: splitShellWordsAux rest [] inSingle inDouble false)
      else splitShellWordsAux rest (current ++ [c]) inSingle inDouble false

/-- `split_shell_words`. -/
def splitShellWords (input : String) : List String :=
  splitShellWordsAux input.data [] false false false

/-- `is_two_word_command`. -/
def isTwoWordCommand (command : String) : Bool :=
  command == "git" || command == "npm" || command == "docker" || command == "kubectl" ||
  command == "cargo" || command == "go" || command == "pip" || command == "yarn"

/-- The leading `KEY=VALUE` scan of `extract_command_prefix`: the recorded
env tokens and the remaining tokens from the command word on. -/
def envSplit : List String → List String × List String
  | [] => ([], [])
  | part :: rest =>
      if strContainsChar part '=' && !(strStartsWith part "-") then
        let split := envSplit rest
        (part :: split.1, split.2)
      else ([], part :: rest)

/-- `extract_command_prefix`. -/
def extractCommandPrefix (command : String) : String :=
  if strContainsChar command backtickChar || strContains command "$(" then
    "command_injection_detected"
  else
    let parts := splitShellWords command
    if parts.isEmpty then "none"
    else
      let split := envSplit parts
      let envs := split.1
      match split.2 with
      | [] => "none"
      | firstWord :: restParts =>
          match restParts with
          | secondWord :: _ =>
              if isTwoWordCommand firstWord then
                (if !(strStartsWith secondWord "-") then firstWord ++ " " ++ secondWord
                 else firstWord)
              else if envs.isEmpty then firstWord
              else String.intercalate " " envs ++ " " ++ firstWord
          | [] =>
              if envs.isEmpty then firstWord
              else String.intercalate " " envs ++ " " ++ firstWord

/-- C6 counterexample: on `"FOO=1 git -c"` the command word `git` is a
two-word command and the next token starts with `-`, so the code returns
`"git"` alone, dropping the recorded `FOO=1` prefix; the claim's "otherwise"
clause says it must return `"FOO=1 git"`. -/
theorem C6_counterexample :
    extractCommandPrefix "FOO=1 git -c" = "git" ∧
    extractCommandPrefix "FOO=1 git -c" ≠ "FOO=1 git" :=
  ⟨rfl, by decide⟩

/-- C6 (amended): `extract_command_prefix` case analysis. Injection markers
win; no tokens, or only `KEY=VALUE` tokens, give `"none"`; a two-word
command whose next token does not start with `-` gives
`"<command> <second>"`; a two-word command whose next token starts with `-`
gives the command word alone, dropping any recorded `KEY=VALUE` prefix;
otherwise the command word is prefixed by the recorded `KEY=VALUE` tokens
when present. -/
theorem C6_extract_command_cases (command : String) :
    ((strContainsChar command backtickChar || strContains command "$(") = true →
      extractCommandPrefix command = "command_injection_detected") ∧
    ((strContainsChar command backtickChar || strContains command "$(") = false →
      splitShellWords command = [] → extractCommandPrefix command = "none") ∧
    (∀ envs, (strContainsChar command backtickChar || strContains command "$(") = false →
      envSplit (splitShellWords command) = (envs, []) →
      extractCommandPrefix command = "none") ∧
    (∀ envs w second rest,
      (strContainsChar command backtickChar || strContains command "$(") = false →
      envSplit (splitShellWords command) = (envs, w :: second :: rest) →
      isTwoWordCommand w = true → strStartsWith second "-" = false →
      extractCommandPrefix command = w ++ " " ++ second) ∧
    (∀ envs w second rest,
      (strContainsChar command backtickChar || strContains command "$(") = false →
      envSplit (splitShellWords command) = (envs, w :: second :: rest) →
      isTwoWordCommand w = true → strStartsWith second "-" = true →
      extractCommandPrefix command = w) ∧
    (∀ envs w rest,
      (strContainsChar command backtickChar || strContains command "$(") = false →
      envSplit (splitShellWords command) = (envs, w :: rest) →
      (isTwoWordCommand w = false ∨ rest = []) →
      extractCommandPrefix command =
        (if envs.isEmpty then w else String.intercalate " " envs ++ " " ++ w)) := by
  refine ⟨?_, ?_, ?_, ?_, ?_, ?_⟩
  · intro hinj
    simp [extractCommandPrefix, hinj]
  · intro hinj hparts
    simp [extractCommandPrefix, hinj, hparts]
  · intro envs hinj henv
    cases hp : splitShellWords command with
    | nil => simp [extractCommandPrefix, hinj, hp]
    | cons x xs =>
        rw [hp] at henv
        simp [extractCommandPrefix, hinj, hp, henv]
  · intro envs w second rest hinj henv h2w hs
    cases hp : splitShellWords command with
    | nil =>
        rw [hp] at henv
        simp [envSplit] at henv
    | cons x xs =>
        rw [hp] at henv
        simp [extractCommandPrefix, hinj, hp, henv, h2w, hs]
  · intro envs w second rest hinj henv h2w hs
    cases hp : splitShellWords command with
    | nil =>
        rw [hp] at henv
        simp [envSplit] at henv
    | cons x xs =>
        rw [hp] at henv
        simp [extractCommandPrefix, hinj, hp, henv, h2w, hs]
  · intro envs w rest hinj henv hcase
    cases hp : splitShellWords command with
    | nil =>
        rw [hp] at henv
        simp [envSplit] at henv
    | cons x xs =>
        rw [hp] at henv
        cases rest with
        | nil => simp [extractCommandPrefix, hinj, hp, henv]
        | cons second rest2 =>
            rcases hcase with h2w | hne
            · simp [extractCommandPrefix, hinj, hp, henv, h2w]
            · exact absurd hne (by simp)

/-- Witness for C6: a two-word command, an env-prefixed plain command, and
an injection case, concretely. -/
theorem C6_extract_command_cases_witness :
    extractCommandPrefix "git commit -m hi" = "git commit" ∧
    extractCommandPrefix "FOO=1 BAR=2 python run.py" = "FOO=1 BAR=2 python" ∧
    extractCommandPrefix "echo $(cat /tmp/a)" = "command_injection_detected" :=
  ⟨((C6_extract_command_cases "git commit -m hi").2.2.2.1 [] "git" "commit" ["-m", "hi"]
      rfl rfl rfl rfl).trans rfl,
   (((C6_extract_command_cases "FOO=1 BAR=2 python run.py").2.2.2.2.2 ["FOO=1", "BAR=2"]
      "python" ["run.py"] rfl rfl (Or.inl rfl))).trans rfl,
   (C6_extract_command_cases "echo $(cat /tmp/a)").1 rfl⟩

/-! ## More string helpers (Rust `str::find`, `str::rfind`, slicing)

Rust indices are byte offsets; the model uses character offsets. Every
pattern the code searches for is ASCII and slices only happen at pattern
boundaries, where the two coincide for the purposes of the extracted text. -/

/-- First occurrence of `pat`, as a character index. -/
def firstIndexOfAux (pat : List Char) : List Char → Nat → Option Nat
  | [], i => if pat.isEmpty then some i else none
  | c :: rest, i =>
      if pat.isPrefixOf (c :: rest) then some i else firstIndexOfAux pat rest (i + 1)

/-- Rust `str::find(&str)`. -/
def strFind (hay pat : String) : Option Nat := firstIndexOfAux pat.data hay.data 0

/-- Helper for `str::rfind`: keeps the last matching index. -/
def rfindAux (pat : List Char) : List Char → Nat → Option Nat → Option Nat
  | [], i, best => if pat.isEmpty then some i else best
  | c :: rest, i, best =>
      rfindAux pat rest (i + 1) (if pat.isPrefixOf (c :: rest) then some i else best)

/-- Rust `str::rfind(&str)`. -/
def strRFind (hay pat : String) : Option Nat := rfindAux pat.data hay.data 0 none

/-- `s[n..]` as characters. -/
def strDropChars (s : String) (n : Nat) : String := String.mk (s.data.drop n)

/-- `s[..n]` as characters. -/
def strTakeChars (s : String) (n : Nat) : String := String.mk (s.data.take n)

/-! ## LocalOptimizer detection (src/gateway/optimization/detection.rs) -/

def HISTORY_ANALYSIS_PARSE : String := "You are an expert at analyzing git history."
def TITLE_GENERATION_PHRASE : String :=
  "Analyze if this message indicates a new conversation topic."
def SUGGESTION_MODE_MARKER : String := "[SUGGESTION MODE:"
def COMMAND_MARKER : String := "Command:"
def OUTPUT_MARKER : String := "Output:"

/-- `is_count_tokens_url`: the ASCII-lowercased URL contains `count_tokens`. -/
def isCountTokensUrl (url : String) : Bool := strContains (strLowerAscii url) "count_tokens"

/-- `get_messages`. -/
def getMessages (request : Json) : Option (List Json) :=
  (request.get? "messages").bind Json.asArr

/-- `get_system`. -/
def getSystem (request : Json) : Option (List Json) :=
  (request.get? "system").bind Json.asArr

/-- `message_role`. -/
def messageRole (message : Json) : Option String :=
  (message.get? "role").bind Json.asStr

/-- `extract_text_from_content`: a string passes through; an array joins the
`text` (or else `thinking`) string of every block; anything else is empty. -/
def extractTextFromContent (content : Json) : String :=
  match content with
  | .str text => text
  | .arr blocks => String.join (blocks.filterMap (fun block =>
      ((block.get? "text").bind Json.asStr).orElse
        (fun _ => (block.get? "thinking").bind Json.asStr)))
  | _ => ""

/-- `extract_message_text`. -/
def extractMessageText (message : Json) : String :=
  match message.get? "content" with
  | some content => extractTextFromContent content
  | none => ""

/-- `extract_system_text`. -/
def extractSystemText (message : Json) : String :=
  match message.get? "text" with
  | some t => extractTextFromContent t
  | none => ""

/-- `is_quota_check_request`: `max_tokens == 1`, exactly one message, that
message has role `user`, and its (lowercased) text contains `count`. Rust's
Unicode `to_lowercase` is modeled by ASCII lowering. -/
def isQuotaCheckRequest (request : Json) : Bool :=
  if (request.get? "max_tokens").bind Json.asI64 ≠ some 1 then false
  else
    match getMessages request with
    | none => false
    | some messages =>
        if messages.length ≠ 1 then false
        else if messageRole (messages.getD 0 Json.null) ≠ some "user" then false
        else strContains (strLowerAscii (extractMessageText (messages.getD 0 Json.null))) "count"

/-- `detect_prefix_command`. -/
def detectPrefixCommand (request : Json) : Option String :=
  match getMessages request with
  | none => none
  | some messages =>
      if messages.length ≠ 1 then none
      else if messageRole (messages.getD 0 Json.null) ≠ some "user" then none
      else
        let content := extractMessageText (messages.getD 0 Json.null)
        if !(strContains content "<policy_spec>") || !(strContains content COMMAND_MARKER) then
          none
        else
          match strRFind content COMMAND_MARKER with
          | none => none
          | some idx => some (strTrim (strDropChars content (idx + COMMAND_MARKER.length)))

/-- `is_historical_analysis_request`. -/
def isHistoricalAnalysisRequest (request : Json) : Bool :=
  match getSystem request with
  | none => false
  | some system =>
      match system.getLast? with
      | none => false
      | some lastSystem => strContains (extractSystemText lastSystem) HISTORY_ANALYSIS_PARSE

/-- `is_title_generation_request`. -/
def isTitleGenerationRequest (request : Json) : Bool :=
  match getSystem request with
  | none => false
  | some system =>
      match system.getLast? with
      | none => false
      | some lastSystem => strContains (extractSystemText lastSystem) TITLE_GENERATION_PHRASE

/-- `is_suggestion_mode_request`. -/
def isSuggestionModeRequest (request : Json) : Bool :=
  match getMessages request with
  | none => false
  | some messages =>
      messages.any (fun message =>
        messageRole message == some "user" &&
        strContains (extractMessageText message) SUGGESTION_MODE_MARKER)

/-- `detect_filepath_extraction_request`. -/
def detectFilepathExtractionRequest (request : Json) : Option (String × String) :=
  match getMessages request with
  | none => none
  | some messages =>
    if messages.length ≠ 1 then none
    else if messageRole (messages.getD 0 Json.null) ≠ some "user" then none
    else if (match (request.get? "tools").bind Json.asArr with
             | some tools => !tools.isEmpty
             | none => false) then none
    else
      let content := extractMessageText (messages.getD 0 Json.null)
      if !(strContains content COMMAND_MARKER) || !(strContains content OUTPUT_MARKER) then none
      else
        let contentLower := strLowerAscii content
        let userHasFilepaths := strContains contentLower "filepaths" ||
          strContains contentLower "<filepaths>"
        let systemText := match request.get? "system" with
          | some v => extractTextFromContent v
          | none => ""
        let systemTextLower := strLowerAscii systemText
        let systemHasExtract := strContains systemTextLower "extract any file paths" ||
          strContains systemTextLower "file paths that this command"
        if !userHasFilepaths && !systemHasExtract then none
        else
          match strFind content COMMAND_MARKER with
          | none => none
          | some cidx =>
            let commandStart := cidx + COMMAND_MARKER.length
            match strFind (strDropChars content commandStart) OUTPUT_MARKER with
            | none => none
            | some oidx =>
              let command := strTrim (strTakeChars (strDropChars content commandStart) oidx)
              let output0 :=
                strTrim (strDropChars content (commandStart + oidx + OUTPUT_MARKER.length))
              let output1 := match strFind output0 "<" with
                | some i => strTrim (strTakeChars output0 i)
                | none => output0
              let output2 := match strFind output1 "\n\n" with
                | some i => strTrim (strTakeChars output1 i)
                | none => output1
              some (command, output2)

/-! ## Filepath extraction (src/gateway/optimization/command_utils.rs) -/

def EMPTY_FILEPATHS_XML : String := "<filepaths>\n</filepaths>"

/-- `is_listing_command`. -/
def isListingCommand (command : String) : Bool :=
  command == "ls" || command == "dir" || command == "find" || command == "tree" ||
  command == "pwd" || command == "cd" || command == "mkdir" || command == "rmdir" ||
  command == "rm"

/-- `is_reading_command`. -/
def isReadingCommand (command : String) : Bool :=
  command == "cat" || command == "head" || command == "tail" || command == "less" ||
  command == "more" || command == "bat" || command == "type"

/-- `is_flag_with_argument`. -/
def isFlagWithArgument (flag : String) : Bool :=
  flag == "-e" || flag == "-f" || flag == "-m" || flag == "-A" || flag == "-B" || flag == "-C"

/-- `build_filepaths_xml`. -/
def buildFilepathsXml (filepaths : List String) : String :=
  if filepaths.isEmpty then EMPTY_FILEPATHS_XML
  else "<filepaths>\n" ++ String.intercalate "\n" filepaths ++ "\n</filepaths>"

/-- `parts[0].rsplit(['/', '\\']).next().unwrap_or(..).to_ascii_lowercase()`. -/
def baseNameOf (s : String) : String :=
  strLowerAscii (String.mk
    ((s.data.reverse.takeWhile (fun c => !(c == '/' || c == backslashChar))).reverse))

/-- The grep flag loop of `extract_filepaths_from_command`: returns whether
the pattern was provided via `-e`/`-f` and the positional tokens in order. -/
def grepPositional : List String → Bool → Bool → Bool × List String
  | [], patternViaFlag, _ => (patternViaFlag, [])
  | part :: rest, patternViaFlag, skipNext =>
      if skipNext then grepPositional rest patternViaFlag false
      else if strStartsWith part "-" then
        (if isFlagWithArgument part then
          grepPositional rest (patternViaFlag || part == "-e" || part == "-f") true
        else grepPositional rest patternViaFlag false)
      else
        let r := grepPositional rest patternViaFlag false
        (r.1, part :: r.2)

/-- `extract_filepaths_from_command` (the `output` argument is unused in the
source as well). -/
def extractFilepathsFromCommand (command : String) (_output : String) : String :=
  let parts := splitShellWords command
  if parts.isEmpty then EMPTY_FILEPATHS_XML
  else
    let baseCommand := baseNameOf (parts.getD 0 "")
    if isListingCommand baseCommand then EMPTY_FILEPATHS_XML
    else if isReadingCommand baseCommand then
      buildFilepathsXml ((parts.drop 1).filter (fun part => !(strStartsWith part "-")))
    else if baseCommand == "grep" then
      let r := grepPositional (parts.drop 1) false false
      buildFilepathsXml (if r.1 then r.2 else r.2.drop 1)
    else EMPTY_FILEPATHS_XML

/-! ## LocalOptimizer dispatch (src/gateway/optimization/mod.rs) -/

/-- The six gating flags of `OptimizationConfig` (config/mod.rs). -/
structure OptimizationConfig where
  enable_network_probe_mock : Bool
  enable_fast_prefix_detection : Bool
  enable_historical_analysis_mock : Bool
  enable_title_generation_skip : Bool
  enable_suggestion_mode_skip : Bool
  enable_filepath_extraction_mock : Bool

/-- All flags default to true. -/
def defaultOptimizationConfig : OptimizationConfig := ⟨true, true, true, true, true, true⟩

/-- A locally synthesised response: the `text` placed at `content[0].text`
of the Anthropic envelope built by `build_text_response`, and the static
`reason` tag. The envelope's `id` is time/sequence dependent and outside
the model; nothing below depends on it. -/
structure OptimizationResponse where
  text : String
  reason : String

/-- `try_local_optimization`: the detector chain in source order; the body
is `none` when `serde_json::from_slice` fails on the raw bytes. -/
def tryLocalOptimization (body : Option Json) (requestUrl : String)
    (flags : OptimizationConfig) : Option OptimizationResponse :=
  if flags.enable_network_probe_mock && isCountTokensUrl requestUrl then
    some ⟨"Max tokens passed.", "max_tokens_mock"⟩
  else
    match body with
    | none => none
    | some request =>
      if flags.enable_network_probe_mock && isQuotaCheckRequest request then
        some ⟨"Quota check passed.", "quota_probe_mock"⟩
      else if flags.enable_historical_analysis_mock &&
          isHistoricalAnalysisRequest request then
        some ⟨"historical analysis passed.", "historical_analysis_skip"⟩
      else
        match (if flags.enable_fast_prefix_detection
               then detectPrefixCommand request else none) with
        | some command => some ⟨extractCommandPrefix command, "fast_prefix_detection"⟩
        | none =>
          if flags.enable_title_generation_skip && isTitleGenerationRequest request then
            some ⟨"Conversation", "title_generation_skip"⟩
          else if flags.enable_suggestion_mode_skip && isSuggestionModeRequest request then
            some ⟨"", "suggestion_mode_skip"⟩
          else
            match (if flags.enable_filepath_extraction_mock
                   then detectFilepathExtractionRequest request else none) with
            | some co => some ⟨extractFilepathsFromCommand co.1 co.2, "filepath_extraction_mock"⟩
            | none => none

/-- A two-message body: an assistant message and one user message whose text
contains `count`. -/
def c7AssistantMsg : Json := Json.obj [("role", Json.str "assistant"), ("content", Json.str "x")]

def c7UserMsg : Json := Json.obj [("role", Json.str "user"), ("content", Json.str "count")]

def c7TwoMessageBody : Json :=
  Json.obj [("max_tokens", Json.num 1), ("messages", Json.arr [c7AssistantMsg, c7UserMsg])]

/-- C7 counterexample: a body with `max_tokens == 1` and exactly one *user*
message containing `count` — but two messages in total — is not intercepted
(the code requires `messages.len() == 1`), contradicting the claim's
"exactly one user message" trigger. -/
theorem C7_counterexample :
    tryLocalOptimization (some c7TwoMessageBody) "/claude/v1/messages"
      defaultOptimizationConfig = none ∧
    (List.filter (fun m => messageRole m == some "user")
      [c7AssistantMsg, c7UserMsg]).length = 1 ∧
    (c7TwoMessageBody.get? "max_tokens").bind Json.asI64 = some 1 ∧
    strContains (strLowerAscii (extractMessageText c7UserMsg)) "count" = true :=
  ⟨rfl, rfl, rfl, rfl⟩

/-- C7 (amended): with `network_probe_mock` enabled and a URL that is not a
count_tokens URL, the optimizer yields the `quota_probe_mock` response with
text `"Quota check passed."` exactly when the body parses and
`is_quota_check_request` holds; and `is_quota_check_request` demands a
`messages` array with exactly one element whose role is `user` and whose
text (lowercased) contains `count`, besides `max_tokens == 1`. -/
theorem C7_quota_probe_mock (body : Option Json) (url : String) (flags : OptimizationConfig)
    (hflag : flags.enable_network_probe_mock = true)
    (hurl : isCountTokensUrl url = false) :
    (tryLocalOptimization body url flags =
        some ⟨"Quota check passed.", "quota_probe_mock"⟩ ↔
      ∃ j, body = some j ∧ isQuotaCheckRequest j = true) ∧
    (∀ j msgs m, j.get? "messages" = some (Json.arr msgs) → msgs = [m] →
      (isQuotaCheckRequest j = true ↔
        ((j.get? "max_tokens").bind Json.asI64 = some 1 ∧
         messageRole m = some "user" ∧
         strContains (strLowerAscii (extractMessageText m)) "count" = true))) ∧
    (∀ j msgs, j.get? "messages" = some (Json.arr msgs) → msgs.length ≠ 1 →
      isQuotaCheckRequest j = false) := by
  refine ⟨⟨?_, ?_⟩, ?_, ?_⟩
  · intro h
    cases body with
    | none => simp [tryLocalOptimization, hurl] at h
    | some j =>
        by_cases hq : isQuotaCheckRequest j
        · exact ⟨j, rfl, hq⟩
        · exfalso
          simp [tryLocalOptimization, hurl, hq] at h
          repeat' split at h
          all_goals simp_all
  · rintro ⟨j, rfl, hq⟩
    simp [tryLocalOptimization, hflag, hurl, hq]
  · intro j msgs m hmsgs hm
    subst hm
    unfold isQuotaCheckRequest
    rw [show getMessages j = some [m] by simp [getMessages, hmsgs, Json.asArr]]
    by_cases h1 : (j.get? "max_tokens").bind Json.asI64 = some 1 <;>
      by_cases h2 : messageRole m = some "user" <;>
        simp [h1, h2]
  · intro j msgs hmsgs hlen
    unfold isQuotaCheckRequest
    rw [show getMessages j = some msgs by simp [getMessages, hmsgs, Json.asArr]]
    simp [hlen]

/-- The spec's quota-probe body. -/
def c7QuotaBody : Json :=
  Json.obj [("max_tokens", Json.num 1),
    ("messages", Json.arr [Json.obj [("role", Json.str "user"), ("content", Json.str "count")]])]

/-- Witness for C7: the spec's concrete quota probe is intercepted with tag
`quota_probe_mock` and text `"Quota check passed."`. -/
theorem C7_quota_probe_mock_witness :
    tryLocalOptimization (some c7QuotaBody) "/claude/v1/messages" defaultOptimizationConfig =
      some ⟨"Quota check passed.", "quota_probe_mock"⟩ :=
  ((C7_quota_probe_mock (some c7QuotaBody) "/claude/v1/messages" defaultOptimizationConfig
      rfl rfl).1).mpr ⟨c7QuotaBody, rfl, rfl⟩

/-! ## JSON serialization and parsing (modeling `serde_json`)

`renderJson` models `serde_json::to_string` (compact form); `parseJson`
models `serde_json::from_str`. Numbers are integers: a fraction or exponent
makes `parseJson` fail where serde would produce an `f64` (floating point is
outside the model). `\uXXXX` escapes are mapped through `Char.ofNat`
(unpaired surrogates, which serde rejects, fall to the null character). -/

/-- Opening brace character. -/
def openBraceChar : Char := Char.ofNat 123

/-- Closing brace character. -/
def closeBraceChar : Char := Char.ofNat 125

/-- Lowercase hex digit. -/
def hexDigit (n : Nat) : Char :=
  if n < 10 then Char.ofNat (48 + n) else Char.ofNat (87 + (n - 10))

/-- serde's string escaping: quote, backslash, the short control escapes,
`\u00XX` for other control characters, everything else verbatim. -/
def escapeJsonChar (c : Char) : List Char :=
  if c == dquoteChar then [backslashChar, dquoteChar]
  else if c == backslashChar then [backslashChar, backslashChar]
  else if c == Char.ofNat 8 then [backslashChar, 'b']
  else if c == Char.ofNat 9 then [backslashChar, 't']
  else if c == Char.ofNat 10 then [backslashChar, 'n']
  else if c == Char.ofNat 12 then [backslashChar, 'f']
  else if c == Char.ofNat 13 then [backslashChar, 'r']
  else if c.toNat < 32 then
    [backslashChar, 'u', '0', '0', hexDigit (c.toNat / 16), hexDigit (c.toNat % 16)]
  else [c]

/-- Render a JSON string literal. -/
def renderString (s : String) : String :=
  String.mk ([dquoteChar] ++ (s.data.map escapeJsonChar).flatten ++ [dquoteChar])

mutual

/-- `serde_json::to_string` (compact form). -/
def renderJson : Json → String
  | .null => "null"
  | .bool true => "true"
  | .bool false => "false"
  | .num n => toString n
  | .str s => renderString s
  | .arr xs => "[" ++ renderJsonList xs ++ "]"
  | .obj fs => "\x7b" ++ renderJsonFields fs ++ "\x7d"

/-- Comma-joined rendered array elements. -/
def renderJsonList : List Json → String
  | [] => ""
  | [x] => renderJson x
  | x :: y :: rest => renderJson x ++ "," ++ renderJsonList (y :: rest)

/-- Comma-joined rendered object fields. -/
def renderJsonFields : List (String × Json) → String
  | [] => ""
  | [(k, v)] => renderString k ++ ":" ++ renderJson v
  | (k, v) :: p :: rest =>
      renderString k ++ ":" ++ renderJson v ++ "," ++ renderJsonFields (p :: rest)

end

/-- Skip JSON whitespace. -/
def skipWsL (cs : List Char) : List Char :=
  cs.dropWhile (fun c =>
    c == ' ' || c == Char.ofNat 9 || c == Char.ofNat 10 || c == Char.ofNat 13)

/-- Hex digit value. -/
def hexVal (c : Char) : Option Nat :=
  if 48 ≤ c.toNat && c.toNat ≤ 57 then some (c.toNat - 48)
  else if 97 ≤ c.toNat && c.toNat ≤ 102 then some (c.toNat - 87)
  else if 65 ≤ c.toNat && c.toNat ≤ 70 then some (c.toNat - 55)
  else none

/-- Four hex digits of a `\u` escape. -/
def parseHex4 : List Char → Option (Nat × List Char)
  | c1 :: c2 :: c3 :: c4 :: rest =>
      match hexVal c1, hexVal c2, hexVal c3, hexVal c4 with
      | some h1, some h2, some h3, some h4 =>
          some (((h1 * 16 + h2) * 16 + h3) * 16 + h4, rest)
      | _, _, _, _ => none
  | _ => none

/-- String body after the opening quote; the accumulator is reversed. -/
def parseStringAux : Nat → List Char → List Char → Option (String × List Char)
  | 0, _, _ => none
  | fuel + 1, acc, cs =>
      match cs with
      | [] => none
      | c :: rest =>
          if c == dquoteChar then some (String.mk acc.reverse, rest)
          else if c == backslashChar then
            match rest with
            | [] => none
            | e :: rest2 =>
                if e == dquoteChar then parseStringAux fuel (dquoteChar :: acc) rest2
                else if e == backslashChar then parseStringAux fuel (backslashChar :: acc) rest2
                else if e == '/' then parseStringAux fuel ('/' :: acc) rest2
                else if e == 'b' then parseStringAux fuel (Char.ofNat 8 :: acc) rest2
                else if e == 'f' then parseStringAux fuel (Char.ofNat 12 :: acc) rest2
                else if e == 'n' then parseStringAux fuel (Char.ofNat 10 :: acc) rest2
                else if e == 'r' then parseStringAux fuel (Char.ofNat 13 :: acc) rest2
                else if e == 't' then parseStringAux fuel (Char.ofNat 9 :: acc) rest2
                else if e == 'u' then
                  match parseHex4 rest2 with
                  | some (n, rest3) => parseStringAux fuel (Char.ofNat n :: acc) rest3
                  | none => none
                else none
          else if c.toNat < 32 then none
          else parseStringAux fuel (c :: acc) rest

/-- Digit run to a natural number. -/
def digitsToNat : List Char → Nat → Nat
  | [], acc => acc
  | c :: rest, acc => digitsToNat rest (acc * 10 + (c.toNat - 48))

/-- Integer literal (sign already consumed); leading zeros and any fraction
or exponent are rejected. -/
def parseNumber (cs : List Char) (neg : Bool) : Option (Json × List Char) :=
  let ds := cs.takeWhile Char.isDigit
  let rest := cs.dropWhile Char.isDigit
  if ds.isEmpty then none
  else if ds.length > 1 && ds.headD '0' == '0' then none
  else
    match rest with
    | '.' :: _ => none
    | 'e' :: _ => none
    | 'E' :: _ => none
    | _ =>
        let n : Int := Int.ofNat (digitsToNat ds 0)
        some (.num (if neg then -n else n), rest)

/-- Array elements after the first element's start (non-empty arrays). -/
def parseListAux (p : List Char → Option (Json × List Char)) :
    Nat → List Char → Option (List Json × List Char)
  | 0, _ => none
  | fuel + 1, cs =>
      match p cs with
      | none => none
      | some (v, rest) =>
          match skipWsL rest with
          | ',' :: rest2 =>
              match parseListAux p fuel (skipWsL rest2) with
              | some (vs, rest3) => some (v :: vs, rest3)
              | none => none
          | c :: rest2 => if c == ']' then some ([v], rest2) else none
          | [] => none

/-- Object fields from the first key's quote (non-empty objects). -/
def parseFieldsAux (p : List Char → Option (Json × List Char)) :
    Nat → List Char → Option (List (String × Json) × List Char)
  | 0, _ => none
  | fuel + 1, cs =>
      match cs with
      | [] => none
      | c :: rest =>
          if c == dquoteChar then
            match parseStringAux (rest.length + 1) [] rest with
            | none => none
            | some (key, rest2) =>
                match skipWsL rest2 with
                | ':' :: rest3 =>
                    match p (skipWsL rest3) with
                    | none => none
                    | some (v, rest4) =>
                        match skipWsL rest4 with
                        | ',' :: rest5 =>
                            match parseFieldsAux p fuel (skipWsL rest5) with
                            | some (fs, rest6) => some ((key, v) :: fs, rest6)
                            | none => none
                        | cb :: rest5 =>
                            if cb == closeBraceChar then some ([(key, v)], rest5) else none
                        | [] => none
                | _ => none
          else none

/-- One JSON value. -/
def parseVal : Nat → List Char → Option (Json × List Char)
  | 0, _ => none
  | fuel + 1, cs =>
      match skipWsL cs with
      | [] => none
      | c :: rest =>
          if c == 'n' then
            match rest with
            | 'u' :: 'l' :: 'l' :: rest2 => some (.null, rest2)
            | _ => none
          else if c == 't' then
            match rest with
            | 'r' :: 'u' :: 'e' :: rest2 => some (.bool true, rest2)
            | _ => none
          else if c == 'f' then
            match rest with
            | 'a' :: 'l' :: 's' :: 'e' :: rest2 => some (.bool false, rest2)
            | _ => none
          else if c == dquoteChar then
            match parseStringAux (rest.length + 1) [] rest with
            | some (s, rest2) => some (.str s, rest2)
            | none => none
          else if c == '[' then
            match skipWsL rest with
            | [] => none
            | cb :: rest2 =>
                if cb == ']' then some (.arr [], rest2)
                else
                  match parseListAux (parseVal fuel) fuel (cb :: rest2) with
                  | some (vs, rest3) => some (.arr vs, rest3)
                  | none => none
          else if c == openBraceChar then
            match skipWsL rest with
            | [] => none
            | cb :: rest2 =>
                if cb == closeBraceChar then some (.obj [], rest2)
                else
                  match parseFieldsAux (parseVal fuel) fuel (cb :: rest2) with
                  | some (fs, rest3) => some (.obj fs, rest3)
                  | none => none
          else if c == '-' then parseNumber rest true
          else if c.isDigit then parseNumber (c :: rest) false
          else none

/-- `serde_json::from_str::<Value>`: parse one value and demand only
whitespace after it. -/
def parseJson (s : String) : Option Json :=
  match parseVal (s.length + 1) s.data with
  | some (j, rest) => if (skipWsL rest).isEmpty then some j else none
  | none => none

/-! ## Anthropic → OpenAI Responses request translation
(src/gateway/openai_compat/request.rs, media.rs) -/

mutual

/-- Structural size of a JSON value (used as recursion fuel below). -/
def jsonSize : Json → Nat
  | .arr xs => 1 + jsonSizeList xs
  | .obj fs => 1 + jsonSizeFields fs
  | _ => 1

def jsonSizeList : List Json → Nat
  | [] => 0
  | x :: rest => jsonSize x + jsonSizeList rest

def jsonSizeFields : List (String × Json) → Nat
  | [] => 0
  | (_, v) :: rest => jsonSize v + jsonSizeFields rest

end

/-- `extract_text_value`, fuel-indexed: a string, or recursively the `text`
or else `value` field of an object. -/
def extractTextValueF : Nat → Json → Option String
  | 0, _ => none
  | fuel + 1, v =>
      match v with
      | .str text => some text
      | .obj fields =>
          match lookupField fields "text" with
          | some t => extractTextValueF fuel t
          | none =>
              match lookupField fields "value" with
              | some t => extractTextValueF fuel t
              | none => none
      | _ => none

/-- `extract_text_value`: each recursion step descends into a field value,
whose `jsonSize` is strictly smaller, so the fuel suffices. -/
def extractTextValue (v : Json) : Option String := extractTextValueF (jsonSize v) v

/-- `normalize_text_block_in_place`: on a `type == "text"` block, coerce the
`text` field to a plain string (via `extract_text_value`), or to `""` when
unrecoverable; leave the block alone when `text` is absent. Rust's borrowed
early-return for an already-plain string is value-equal to the re-insert. -/
def normalizeTextBlock (block : Json) : Json :=
  match block with
  | .obj fields =>
      if ((lookupField fields "type").bind Json.asStr).getD "" ≠ "text" then block
      else
        match lookupField fields "text" with
        | none => block
        | some textValue =>
            match extractTextValue textValue with
            | some newText => Json.obj (setField fields "text" (Json.str newText))
            | none => Json.obj (setField fields "text" (Json.str ""))
  | _ => block

/-- `claude_content_to_blocks`. -/
def claudeContentToBlocks : Option Json → List Json
  | none => []
  | some (Json.str text) => [Json.obj [("type", Json.str "text"), ("text", Json.str text)]]
  | some (Json.arr items) => items.map normalizeTextBlock
  | some _ => []

/-- `claude_image_block_to_input_image_part` (media.rs). -/
def claudeImageBlockToInputImagePart (block : List (String × Json)) : Option Json :=
  match lookupField block "source" with
  | some (Json.obj source) =>
      if ((lookupField source "type").bind Json.asStr) ≠ some "base64" then none
      else
        let mediaType := ((lookupField source "media_type").bind Json.asStr).getD "image/png"
        match (lookupField source "data").bind Json.asStr with
        | some data => some (Json.obj [("type", Json.str "input_image"),
            ("image_url", Json.str ("data:" ++ mediaType ++ ";base64," ++ data))])
        | none => none
  | _ => none

/-- `claude_document_block_to_input_file_part` (media.rs). -/
def claudeDocumentBlockToInputFilePart (block : List (String × Json)) : Option Json :=
  match lookupField block "source" with
  | some (Json.obj source) =>
      if ((lookupField source "type").bind Json.asStr) ≠ some "base64" then none
      else
        let mediaType :=
          ((lookupField source "media_type").bind Json.asStr).getD "application/octet-stream"
        match (lookupField source "data").bind Json.asStr with
        | some data => some (Json.obj [("type", Json.str "input_file"),
            ("file_url", Json.str ("data:" ++ mediaType ++ ";base64," ++ data))])
        | none => none
  | _ => none

/-- First-pass translation of one content block into a message part
(`text` / `image` / `document`), with the text part type fixed by the role. -/
def messagePartOfBlock (textPartType : String) (block : Json) : Option Json :=
  match block with
  | .obj bf =>
      match ((lookupField bf "type").bind Json.asStr).getD "" with
      | "text" => ((lookupField bf "text").bind Json.asStr).map
          (fun t => Json.obj [("type", Json.str textPartType), ("text", Json.str t)])
      | "image" => claudeImageBlockToInputImagePart bf
      | "document" => claudeDocumentBlockToInputFilePart bf
      | _ => none
  | _ => none

/-- Second-pass translation of one content block into a sibling item
(`tool_use` → `function_call`, `tool_result` → `function_call_output`). -/
def toolItemOfBlock (block : Json) : Option Json :=
  match block with
  | .obj bf =>
      match ((lookupField bf "type").bind Json.asStr).getD "" with
      | "tool_use" =>
          let callId := ((lookupField bf "id").bind Json.asStr).getD "call_proxy"
          let name := ((lookupField bf "name").bind Json.asStr).getD ""
          let input := (lookupField bf "input").getD (Json.obj [])
          some (Json.obj [("type", Json.str "function_call"), ("call_id", Json.str callId),
            ("name", Json.str name), ("arguments", Json.str (renderJson input))])
      | "tool_result" =>
          let callId := ((lookupField bf "tool_use_id").bind Json.asStr).getD ""
          let outputText := match lookupField bf "content" with
            | some (Json.str text) => text
            | some other => renderJson other
            | none => ""
          let isError := ((lookupField bf "is_error").bind Json.asBool).getD false
          let finalOutput :=
            if isError && !(outputText == "") then "[ERROR] " ++ outputText else outputText
          some (Json.obj [("type", Json.str "function_call_output"),
            ("call_id", Json.str callId), ("output", Json.str finalOutput)])
      | _ => none
  | _ => none

/-- `claude_message_to_responses_input_items`: `system`-role messages are
dropped; the first pass assembles one `message` item when any parts exist
(assistant text parts are `output_text`, all other roles get `input_text`);
the second pass appends one sibling item per tool block. -/
def claudeMessageToResponsesInputItems (message : Json) : List Json :=
  match message with
  | .obj msg =>
      let role := ((lookupField msg "role").bind Json.asStr).getD "user"
      if role == "system" then []
      else
        let blocks := claudeContentToBlocks (lookupField msg "content")
        let textPartType := if role == "assistant" then "output_text" else "input_text"
        let messageParts := blocks.filterMap (messagePartOfBlock textPartType)
        let firstItems : List Json :=
          if messageParts.isEmpty then []
          else [Json.obj [("type", Json.str "message"), ("role", Json.str role),
            ("content", Json.arr messageParts)]]
        firstItems ++ blocks.filterMap toolItemOfBlock
  | _ => []

/-- `max_tokens` → `max_output_tokens` in `anthropic_request_to_responses`:
`as_i64`, keep only positive, default 4096. -/
def maxOutputTokensOf (request : Json) : Int :=
  match (request.get? "max_tokens").bind Json.asI64 with
  | some v => if v > 0 then v else 4096
  | none => 4096

/-- `stream` passthrough in `anthropic_request_to_responses`: `as_bool`,
default `false`. -/
def streamOf (request : Json) : Bool :=
  ((request.get? "stream").bind Json.asBool).getD false

/-- The parse-result branch of the per-item repair, split out: on a parsed
JSON array, drop `call_id`/`output`, remove index 1 of the array, set the
first element's `type` (when it is an object) to `output_text`, and turn the
item into an assistant `message`; on any other parse result, keep the item. -/
def fixFromParsed (fields : List (String × Json)) : Option Json → Json
  | some (Json.arr parsedOutput) =>
      let fields1 := removeField (removeField fields "call_id") "output"
      let content1 :=
        if parsedOutput.length > 1 then parsedOutput.eraseIdx 1 else parsedOutput
      let content2 := match content1 with
        | Json.obj firstFields :: rest =>
            Json.obj (setField firstFields "type" (Json.str "output_text")) :: rest
        | other => other
      Json.obj (setField (setField (setField fields1
        "type" (Json.str "message")) "role" (Json.str "assistant"))
        "content" (Json.arr content2))
  | _ => Json.obj fields

/-- `fix_malformed_function_call_outputs`, per item: a `function_call_output`
object whose `output` string parses as a JSON array is repaired via
`fixFromParsed`; anything else is untouched. -/
def fixFunctionCallOutputItem (item : Json) : Json :=
  match item with
  | .obj fields =>
      if ((lookupField fields "type").bind Json.asStr).getD "" ≠ "function_call_output" then
        item
      else
        match (lookupField fields "output").bind Json.asStr with
        | none => item
        | some outputStr => fixFromParsed fields (parseJson outputStr)
  | _ => item

/-- `fix_malformed_function_call_outputs`: rewrite each element of the
`input` array in place; a body without an `input` array is untouched. -/
def fixMalformedFunctionCallOutputs (body : Json) : Json :=
  match body with
  | .obj fields =>
      match lookupField fields "input" with
      | some (Json.arr input) =>
          Json.obj (setField fields "input" (Json.arr (input.map fixFunctionCallOutputItem)))
      | _ => body
  | _ => body

/-- The content transformation the claim describes: drop index 1 of the
parsed array, set the first element's `type` to `output_text`. -/
def fixedContentOf (parsed : List Json) : List Json :=
  let content1 := if parsed.length > 1 then parsed.eraseIdx 1 else parsed
  match content1 with
  | Json.obj firstFields :: rest =>
      Json.obj (setField firstFields "type" (Json.str "output_text")) :: rest
  | other => other

/-- C3: `fix_malformed_function_call_outputs` rewrites the `input` array
elementwise; an object item of type `function_call_output` whose `output`
string parses as a JSON array is rewritten in place into
`{type:"message", role:"assistant", content: parsed}` with index 1 of the
parsed array removed, the first element's `type` set to `output_text`, and
`call_id`/`output` deleted; an item whose output does not parse as a JSON
array (or has no string output, or is not a `function_call_output`) is left
unchanged. -/
theorem C3_fix_malformed_function_call_outputs (fields : List (String × Json))
    (input : List Json) (hinput : lookupField fields "input" = some (Json.arr input)) :
    fixMalformedFunctionCallOutputs (Json.obj fields) =
      Json.obj (setField fields "input" (Json.arr (input.map fixFunctionCallOutputItem))) ∧
    (∀ ifields outputStr parsed,
      ((lookupField ifields "type").bind Json.asStr).getD "" = "function_call_output" →
      (lookupField ifields "output").bind Json.asStr = some outputStr →
      parseJson outputStr = some (Json.arr parsed) →
      fixFunctionCallOutputItem (Json.obj ifields) =
        Json.obj (setField (setField (setField
          (removeField (removeField ifields "call_id") "output")
          "type" (Json.str "message")) "role" (Json.str "assistant"))
          "content" (Json.arr (fixedContentOf parsed)))) ∧
    (∀ ifields outputStr,
      ((lookupField ifields "type").bind Json.asStr).getD "" = "function_call_output" →
      (lookupField ifields "output").bind Json.asStr = some outputStr →
      (∀ parsed, parseJson outputStr ≠ some (Json.arr parsed)) →
      fixFunctionCallOutputItem (Json.obj ifields) = Json.obj ifields) ∧
    (∀ ifields,
      ((lookupField ifields "type").bind Json.asStr).getD "" ≠ "function_call_output" →
      fixFunctionCallOutputItem (Json.obj ifields) = Json.obj ifields) ∧
    (∀ ifields,
      (lookupField ifields "output").bind Json.asStr = none →
      fixFunctionCallOutputItem (Json.obj ifields) = Json.obj ifields) := by
  refine ⟨?_, ?_, ?_, ?_, ?_⟩
  · simp only [fixMalformedFunctionCallOutputs]
    rw [hinput]
  · intro ifields outputStr parsed htype houtput hparse
    simp only [fixFunctionCallOutputItem]
    rw [htype, houtput, if_neg (by simp)]
    show fixFromParsed ifields (parseJson outputStr) = _
    rw [hparse]
    simp [fixFromParsed, fixedContentOf]
  · intro ifields outputStr htype houtput hnoparse
    simp only [fixFunctionCallOutputItem]
    rw [htype, houtput, if_neg (by simp)]
    show fixFromParsed ifields (parseJson outputStr) = _
    rcases hp : parseJson outputStr with - | v
    · rfl
    · cases v with
      | arr parsed => exact absurd hp (hnoparse parsed)
      | null => rfl
      | bool b => rfl
      | num n => rfl
      | str s => rfl
      | obj ofields => rfl
  · intro ifields htype
    simp only [fixFunctionCallOutputItem]
    rw [if_pos htype]
  · intro ifields houtput
    simp only [fixFunctionCallOutputItem]
    by_cases htype :
      ((lookupField ifields "type").bind Json.asStr).getD "" ≠ "function_call_output"
    · rw [if_pos htype]
    · rw [if_neg htype, houtput]

/-- A malformed `function_call_output` whose output is a stringified
two-element JSON array of text blocks (the spec's repair example). -/
def c3MalformedItem : Json :=
  Json.obj [("call_id", Json.str "c"),
    ("output", Json.str
      "[\x7b\"text\":\"A\",\"type\":\"text\"\x7d,\x7b\"text\":\"B\",\"type\":\"text\"\x7d]"),
    ("type", Json.str "function_call_output")]

/-- A well-formed `function_call_output` whose output is plain text. -/
def c3NormalItem : Json :=
  Json.obj [("call_id", Json.str "n"), ("output", Json.str "No files found"),
    ("type", Json.str "function_call_output")]

/-- Witness for C3: the malformed item becomes an assistant message holding
only the first text block with type `output_text`; the plain item survives
unchanged. -/
theorem C3_fix_malformed_function_call_outputs_witness :
    fixMalformedFunctionCallOutputs (Json.obj [("model", Json.str "m"),
        ("input", Json.arr [c3MalformedItem, c3NormalItem])]) =
      Json.obj [("model", Json.str "m"), ("input", Json.arr [
        Json.obj [("type", Json.str "message"), ("role", Json.str "assistant"),
          ("content", Json.arr [Json.obj [("text", Json.str "A"),
            ("type", Json.str "output_text")]])],
        c3NormalItem])] ∧
    fixFunctionCallOutputItem c3NormalItem = c3NormalItem :=
  ⟨((C3_fix_malformed_function_call_outputs
      [("model", Json.str "m"), ("input", Json.arr [c3MalformedItem, c3NormalItem])]
      [c3MalformedItem, c3NormalItem] rfl).1).trans rfl,
   (C3_fix_malformed_function_call_outputs
      [("model", Json.str "m"), ("input", Json.arr [c3MalformedItem, c3NormalItem])]
      [c3MalformedItem, c3NormalItem] rfl).2.2.1
     [("call_id", Json.str "n"), ("output", Json.str "No files found"),
      ("type", Json.str "function_call_output")] "No files found" rfl rfl
     (by
       intro parsed h
       rw [show parseJson "No files found" = none from rfl] at h
       exact Option.noConfusion h)⟩

/-- C8 counterexample: a `system`-role message with a text block produces no
input items at all — its text block does not become an `input_text` part,
contradicting the claim's "text blocks of other roles become input_text". -/
theorem C8_counterexample :
    claudeMessageToResponsesInputItems
        (Json.obj [("role", Json.str "system"), ("content", Json.str "hi")]) = [] ∧
    claudeContentToBlocks (some (Json.str "hi")) =
      [Json.obj [("type", Json.str "text"), ("text", Json.str "hi")]] :=
  ⟨rfl, rfl⟩

/-- C8 (amended): `max_tokens` maps to `max_output_tokens` with default 4096
when absent or not greater than 0; `stream` passes through defaulting to
false; a text content block of an `assistant` message becomes an
`output_text` part while text blocks of non-assistant, non-system roles
become `input_text`; messages with role `system` are dropped entirely. -/
theorem C8_request_translation_basics :
    (∀ request, request.get? "max_tokens" = none → maxOutputTokensOf request = 4096) ∧
    (∀ request n, request.get? "max_tokens" = some (Json.num n) → n ≤ 0 →
      maxOutputTokensOf request = 4096) ∧
    (∀ request, request.get? "stream" = none → streamOf request = false) ∧
    (∀ request b, request.get? "stream" = some (Json.bool b) → streamOf request = b) ∧
    (∀ mfields, ((lookupField mfields "role").bind Json.asStr).getD "user" = "system" →
      claudeMessageToResponsesInputItems (Json.obj mfields) = []) ∧
    (∀ mfields role s,
      ((lookupField mfields "role").bind Json.asStr).getD "user" = role →
      role ≠ "system" →
      Json.obj [("type", Json.str "text"), ("text", Json.str s)] ∈
        claudeContentToBlocks (lookupField mfields "content") →
      ∃ parts rest,
        claudeMessageToResponsesInputItems (Json.obj mfields) =
          Json.obj [("type", Json.str "message"), ("role", Json.str role),
            ("content", Json.arr parts)] :: rest ∧
        Json.obj [("type", Json.str (if role == "assistant" then "output_text"
          else "input_text")), ("text", Json.str s)] ∈ parts) := by
  refine ⟨?_, ?_, ?_, ?_, ?_, ?_⟩
  · intro request hget
    simp only [maxOutputTokensOf]
    rw [hget]
    rfl
  · intro request n hget hn
    simp only [maxOutputTokensOf]
    rw [hget]
    show (match Json.asI64 (Json.num n) with
      | some v => if v > 0 then v else (4096 : Int)
      | none => (4096 : Int)) = (4096 : Int)
    rcases h64 : Json.asI64 (Json.num n) with - | v
    · rfl
    · show (if v > 0 then v else (4096 : Int)) = (4096 : Int)
      simp only [Json.asI64] at h64
      by_cases hr : (-(2 ^ 63) ≤ n && n < 2 ^ 63) = true
      · rw [if_pos hr] at h64
        obtain rfl : n = v := Option.some.inj h64
        rw [if_neg (by omega)]
      · rw [if_neg hr] at h64
        exact Option.noConfusion h64
  · intro request hget
    simp only [streamOf]
    rw [hget]
    rfl
  · intro request b hget
    simp only [streamOf]
    rw [hget]
    rfl
  · intro mfields hrole
    simp only [claudeMessageToResponsesInputItems]
    rw [hrole]
    simp
  · intro mfields role s hrole hne hmem
    simp only [claudeMessageToResponsesInputItems]
    rw [hrole]
    have hsys : (role == "system") = false := by
      simp [hne]
    rw [hsys]
    simp only [Bool.false_eq_true, if_false]
    have hpart : messagePartOfBlock (if role == "assistant" then "output_text" else "input_text")
        (Json.obj [("type", Json.str "text"), ("text", Json.str s)]) =
        some (Json.obj [("type",
          Json.str (if role == "assistant" then "output_text" else "input_text")),
          ("text", Json.str s)]) := rfl
    have hpmem : Json.obj [("type",
        Json.str (if role == "assistant" then "output_text" else "input_text")),
        ("text", Json.str s)] ∈
        (claudeContentToBlocks (lookupField mfields "content")).filterMap
          (messagePartOfBlock (if role == "assistant" then "output_text" else "input_text")) :=
      List.mem_filterMap.mpr ⟨_, hmem, hpart⟩
    cases hparts : (claudeContentToBlocks (lookupField mfields "content")).filterMap
        (messagePartOfBlock (if role == "assistant" then "output_text" else "input_text")) with
    | nil =>
        rw [hparts] at hpmem
        cases hpmem
    | cons p ps =>
        rw [hparts] at hpmem
        refine ⟨p :: ps, (claudeContentToBlocks (lookupField mfields "content")).filterMap
          toolItemOfBlock, ?_, hpmem⟩
        simp [List.isEmpty]

/-- Witness for C8: defaults and the assistant/user part types, concretely. -/
theorem C8_request_translation_basics_witness :
    maxOutputTokensOf (Json.obj [("model", Json.str "m")]) = 4096 ∧
    maxOutputTokensOf (Json.obj [("max_tokens", Json.num 0)]) = 4096 ∧
    streamOf (Json.obj [("stream", Json.bool true)]) = true ∧
    claudeMessageToResponsesInputItems
      (Json.obj [("role", Json.str "assistant"), ("content", Json.str "hi")]) =
      [Json.obj [("type", Json.str "message"), ("role", Json.str "assistant"),
        ("content", Json.arr [Json.obj [("type", Json.str "output_text"),
          ("text", Json.str "hi")]])]] :=
  ⟨C8_request_translation_basics.1 (Json.obj [("model", Json.str "m")]) rfl,
   C8_request_translation_basics.2.1 (Json.obj [("max_tokens", Json.num 0)]) 0 rfl
     (by decide),
   C8_request_translation_basics.2.2.2.1 (Json.obj [("stream", Json.bool true)]) true rfl,
   rfl⟩

end CcProxy
